import Mathlib

/-!
Verification of the RouteView service (`src/app/main.py`, `src/app/auth.py`,
`src/app/models.py`).

The SQLAlchemy tables are embedded as Lean structures and the database as
explicit lists of rows; each FastAPI handler becomes a pure function from the
database state (plus request data) to the new state and an HTTP-style result
(`Except Nat α`, the `Nat` being the HTTP status raised).  Python `datetime`
values are modelled as integer timestamps in seconds; calendar `date` values
as integer day ordinals.  `float` columns (`latitude`, `longitude`) are only
stored and echoed by the handlers the claims concern, never computed with, so
they are carried as `Option Int` stand-ins.  Handlers that raise before any
mutation return the unchanged state together with the error status, mirroring
the fact that `HTTPException` is raised before any `db.add`/`db.commit`.
-/

namespace RouteView

/-- Row of the `users` table (`src/app/models.py`, class `User`).
`created_at`/`updated_at` audit columns are not referenced by any claim and
are omitted. -/
structure User where
  id : Int
  email : String
  password_hash : String
  name : String
  role : String
  is_active : Bool
deriving Repr, DecidableEq

/-- Row of the `invite_codes` table (`src/app/models.py`, class `InviteCode`). -/
structure InviteCode where
  id : Int
  code : String
  created_by : Int
  used_by : Option Int
  expires_at : Int
deriving Repr, DecidableEq

/-- Row of the `clients` table (`src/app/models.py`, class `Client`). -/
structure Client where
  id : Int
  name : String
  contact_name : Option String
  contact_phone : Option String
  contact_email : Option String
  notes : Option String
  address : Option String
  latitude : Option Int
  longitude : Option Int
deriving Repr, DecidableEq

/-- Row of the `visit_logs` table (`src/app/models.py`, class `VisitLog`). -/
structure VisitLog where
  id : Int
  client_id : Int
  title : String
  notes : Option String
  checked_in_by : Option Int
deriving Repr, DecidableEq

/-- Row of the `routes` table (`src/app/models.py`, class `Route`). -/
structure Route where
  id : Int
  name : String
  description : Option String
deriving Repr, DecidableEq

/-- Row of the `route_clients` junction table (`src/app/models.py`, class
`RouteClient`).  The surrogate `id` primary key is never read by any handler
or claim and is omitted. -/
structure RouteClient where
  route_id : Int
  client_id : Int
  position : Nat
deriving Repr, DecidableEq

/-- Row of the `route_assignments` table (`src/app/models.py`, class
`RouteAssignment`).  The surrogate `id` primary key is not needed by the
claims about this table and is omitted. -/
structure RouteAssignment where
  route_id : Int
  user_id : Int
  assigned_date : Int
  status : String
deriving Repr, DecidableEq

/-- Row of the `route_templates` table (`src/app/models.py`, class
`RouteTemplate`).  The `client_ids_json` column stores a JSON array of ids;
it is modelled as the decoded list itself (the handlers always
`json.dumps`/`json.loads` it at the boundary). -/
structure RouteTemplate where
  id : Int
  name : String
  description : Option String
  client_ids : List Int
  schedule_days : Option String
  created_by : Int
deriving Repr, DecidableEq

/-- The relational store: one list of rows per table. -/
structure DB where
  users : List User
  invite_codes : List InviteCode
  clients : List Client
  visit_logs : List VisitLog
  routes : List Route
  route_clients : List RouteClient
  assignments : List RouteAssignment
  route_templates : List RouteTemplate
deriving Repr, DecidableEq

/-- Autoincrement primary key: the id handed to the next inserted row.
Modelled as one more than the largest id present (fresh for the table as
long as ids are nonnegative, which autoincrement keys are). -/
def nextId (ids : List Int) : Int :=
  ids.foldl max 0 + 1

/-- `db.query(Client).filter(Client.id == client_id).first()`. -/
def DB.findClient (db : DB) (client_id : Int) : Option Client :=
  db.clients.find? (fun c => c.id == client_id)

/-- `compute_service_status` (`src/app/main.py` lines 335-347).  The Python
function reads the wall clock itself (`datetime.now`); here `now` is passed
explicitly.  `(now - last_serviced).days` is the floor of the difference in
seconds divided by 86400, i.e. `Int.fdiv`. -/
def compute_service_status (last_serviced : Option Int) (now green_days orange_days : Int) : String :=
  match last_serviced with
  | none => "never"
  | some t =>
    let days_ago : Int := (now - t).fdiv 86400
    if days_ago ≤ green_days then "green"
    else if days_ago ≤ orange_days then "orange"
    else "red"

theorem fdiv_86400_eq_ediv (a : Int) : a.fdiv 86400 = a / 86400 :=
  Int.fdiv_eq_ediv a (by norm_num)

/-- C1: `compute_service_status` returns exactly one of never/green/orange/red:
"never" with no last-visit timestamp, "green" when the age in whole days is
at most `green_days`, "orange" when it is above `green_days` and at most
`orange_days`, "red" otherwise; a timestamp exactly `green_days` days old
gives "green" and one exactly `green_days + 1` days old gives "orange"
(assuming `green_days + 1 ≤ orange_days`). -/
theorem compute_service_status_correct (now green_days orange_days t : Int)
    (ls : Option Int) (hgo : green_days + 1 ≤ orange_days) :
    (compute_service_status ls now green_days orange_days = "never" ∨
      compute_service_status ls now green_days orange_days = "green" ∨
      compute_service_status ls now green_days orange_days = "orange" ∨
      compute_service_status ls now green_days orange_days = "red") ∧
    compute_service_status none now green_days orange_days = "never" ∧
    ((now - t).fdiv 86400 ≤ green_days →
      compute_service_status (some t) now green_days orange_days = "green") ∧
    (green_days < (now - t).fdiv 86400 → (now - t).fdiv 86400 ≤ orange_days →
      compute_service_status (some t) now green_days orange_days = "orange") ∧
    (orange_days < (now - t).fdiv 86400 →
      compute_service_status (some t) now green_days orange_days = "red") ∧
    compute_service_status (some (now - green_days * 86400)) now green_days orange_days = "green" ∧
    compute_service_status (some (now - (green_days + 1) * 86400)) now green_days orange_days = "orange" := by
  have hg : (now - (now - green_days * 86400)).fdiv 86400 = green_days := by
    rw [fdiv_86400_eq_ediv]
    omega
  have ho : (now - (now - (green_days + 1) * 86400)).fdiv 86400 = green_days + 1 := by
    rw [fdiv_86400_eq_ediv]
    omega
  refine ⟨?_, rfl, ?_, ?_, ?_, ?_, ?_⟩
  · cases ls with
    | none => exact Or.inl rfl
    | some u =>
      simp only [compute_service_status]
      split
      · exact Or.inr (Or.inl rfl)
      · split
        · exact Or.inr (Or.inr (Or.inl rfl))
        · exact Or.inr (Or.inr (Or.inr rfl))
  · intro h
    simp only [compute_service_status]
    rw [if_pos h]
  · intro h1 h2
    simp only [compute_service_status]
    rw [if_neg (by omega), if_pos h2]
  · intro h
    simp only [compute_service_status]
    rw [if_neg (by omega), if_neg (by omega)]
  · simp only [compute_service_status]
    rw [hg, if_pos le_rfl]
  · simp only [compute_service_status]
    rw [ho, if_neg (by omega), if_pos (by omega)]

theorem compute_service_status_correct_witness :
    ((7 : Int) + 1 ≤ 14) ∧
    ((compute_service_status (some 0) 0 7 14 = "never" ∨
      compute_service_status (some 0) 0 7 14 = "green" ∨
      compute_service_status (some 0) 0 7 14 = "orange" ∨
      compute_service_status (some 0) 0 7 14 = "red") ∧
    compute_service_status none 0 7 14 = "never" ∧
    (((0 : Int) - 0).fdiv 86400 ≤ 7 →
      compute_service_status (some 0) 0 7 14 = "green") ∧
    ((7 : Int) < ((0 : Int) - 0).fdiv 86400 → ((0 : Int) - 0).fdiv 86400 ≤ 14 →
      compute_service_status (some 0) 0 7 14 = "orange") ∧
    ((14 : Int) < ((0 : Int) - 0).fdiv 86400 →
      compute_service_status (some 0) 0 7 14 = "red") ∧
    compute_service_status (some ((0 : Int) - 7 * 86400)) 0 7 14 = "green" ∧
    compute_service_status (some ((0 : Int) - (7 + 1) * 86400)) 0 7 14 = "orange") :=
  ⟨by norm_num, compute_service_status_correct 0 7 14 0 (some 0) (by norm_num)⟩

/-- Request body `RouteCreate` (`src/app/main.py`). -/
structure RouteCreate where
  name : String
  description : Option String
  client_ids : List Int
deriving Repr, DecidableEq

/-- The membership-insertion loop shared by `create_route` (lines 1264-1268),
`update_route` (lines 1297-1301) and `create_route_from_template` (lines
918-922): `for idx, client_id in enumerate(client_ids)`, insert
`RouteClient(route_id, client_id, position=idx)` only when the client lookup
succeeds.  The enumerate index `idx` advances on every element, also on the
skipped ones. -/
def addRouteClients (db : DB) (route_id : Int) : List Int → Nat → List RouteClient
  | [], _ => []
  | client_id :: rest, idx =>
    if (db.findClient client_id).isSome then
      { route_id := route_id, client_id := client_id, position := idx } ::
        addRouteClients db route_id rest (idx + 1)
    else
      addRouteClients db route_id rest (idx + 1)

/-- The membership rows of one route. -/
def routeClientsOf (db : DB) (route_id : Int) : List RouteClient :=
  db.route_clients.filter (fun rc => rc.route_id == route_id)

/-- `create_route` (`src/app/main.py` lines 1257-1272): insert the route, then
run the membership loop.  Returns the fresh route id. -/
def create_route (db : DB) (route : RouteCreate) : DB × Int :=
  let rid := nextId (db.routes.map (fun r => r.id))
  ({ db with
      routes := db.routes ++ [{ id := rid, name := route.name, description := route.description }],
      route_clients := db.route_clients ++ addRouteClients db rid route.client_ids 0 },
    rid)

/-- `update_route` (`src/app/main.py` lines 1284-1305): 404 when the route is
missing; otherwise overwrite name/description, delete every `RouteClient` row
of the route, and re-run the membership loop on the submitted list. -/
def update_route (db : DB) (route_id : Int) (route : RouteCreate) : DB × Except Nat Unit :=
  match db.routes.find? (fun r => r.id == route_id) with
  | none => (db, Except.error 404)
  | some _ =>
    ({ db with
        routes := db.routes.map (fun r =>
          if r.id == route_id then
            { r with name := route.name, description := route.description }
          else r),
        route_clients :=
          (db.route_clients.filter (fun rc => !(rc.route_id == route_id))) ++
            addRouteClients db route_id route.client_ids 0 },
      Except.ok ())

theorem addRouteClients_position_ge (db : DB) (rid : Int) :
    ∀ (ids : List Int) (idx : Nat) (rc : RouteClient),
      rc ∈ addRouteClients db rid ids idx → idx ≤ rc.position := by
  intro ids
  induction ids with
  | nil => intro idx rc h; simp [addRouteClients] at h
  | cons c rest ih =>
    intro idx rc h
    simp only [addRouteClients] at h
    split at h
    · rcases List.mem_cons.mp h with h1 | h1
      · subst h1; exact le_rfl
      · exact Nat.le_of_succ_le (ih (idx + 1) rc h1)
    · exact Nat.le_of_succ_le (ih (idx + 1) rc h)

theorem addRouteClients_fields (db : DB) (rid : Int) :
    ∀ (ids : List Int) (idx : Nat) (rc : RouteClient),
      rc ∈ addRouteClients db rid ids idx →
        rc.route_id = rid ∧ (db.findClient rc.client_id).isSome ∧ rc.client_id ∈ ids := by
  intro ids
  induction ids with
  | nil => intro idx rc h; simp [addRouteClients] at h
  | cons c rest ih =>
    intro idx rc h
    simp only [addRouteClients] at h
    split at h
    · rcases List.mem_cons.mp h with h1 | h1
      · subst h1
        refine ⟨rfl, by assumption, List.mem_cons_self c rest⟩
      · obtain ⟨h2, h3, h4⟩ := ih (idx + 1) rc h1
        exact ⟨h2, h3, List.mem_cons_of_mem c h4⟩
    · obtain ⟨h2, h3, h4⟩ := ih (idx + 1) rc h
      exact ⟨h2, h3, List.mem_cons_of_mem c h4⟩

theorem addRouteClients_positions_pairwise (db : DB) (rid : Int) :
    ∀ (ids : List Int) (idx : Nat),
      (addRouteClients db rid ids idx).Pairwise (fun a b => a.position < b.position) := by
  intro ids
  induction ids with
  | nil => intro idx; simp [addRouteClients]
  | cons c rest ih =>
    intro idx
    simp only [addRouteClients]
    split
    · refine List.Pairwise.cons ?_ (ih (idx + 1))
      intro rc hrc
      have := addRouteClients_position_ge db rid rest (idx + 1) rc hrc
      simpa using Nat.lt_of_lt_of_le (Nat.lt_succ_self idx) this
    · exact ih (idx + 1)

theorem addRouteClients_all_found (db : DB) (rid : Int) :
    ∀ (ids : List Int) (idx : Nat),
      (∀ cid ∈ ids, (db.findClient cid).isSome) →
        (addRouteClients db rid ids idx).map (fun rc => rc.client_id) = ids ∧
        (addRouteClients db rid ids idx).map (fun rc => rc.position) =
          List.range' idx ids.length := by
  intro ids
  induction ids with
  | nil => intro idx _; constructor <;> simp [addRouteClients]
  | cons c rest ih =>
    intro idx hall
    have hc : (db.findClient c).isSome := hall c (List.mem_cons_self c rest)
    have hrest : ∀ cid ∈ rest, (db.findClient cid).isSome :=
      fun cid hm => hall cid (List.mem_cons_of_mem c hm)
    obtain ⟨ih1, ih2⟩ := ih (idx + 1) hrest
    simp only [addRouteClients, hc, if_pos, List.map_cons, List.length_cons]
    constructor
    · rw [ih1]
    · rw [ih2, List.range'_succ]

/-- `create_route_from_template` (`src/app/main.py` lines 897-932): 404 when
the template is missing; otherwise create a route (default name
`"<template name> - <today>"` — Python truthiness makes an empty query
parameter fall back to the default) and run the same membership loop on the
stored client-id list, silently skipping ids whose client no longer exists. -/
def create_route_from_template (db : DB) (template_id : Int) (name : Option String)
    (today : String) : DB × Except Nat Int :=
  match db.route_templates.find? (fun t => t.id == template_id) with
  | none => (db, Except.error 404)
  | some t =>
    let route_name :=
      match name with
      | some s => if s ≠ "" then s else t.name ++ " - " ++ today
      | none => t.name ++ " - " ++ today
    let rid := nextId (db.routes.map (fun r => r.id))
    ({ db with
        routes := db.routes ++ [{ id := rid, name := route_name, description := t.description }],
        route_clients := db.route_clients ++ addRouteClients db rid t.client_ids 0 },
      Except.ok rid)

theorem filter_route_id_addRouteClients (db : DB) (rid : Int) (ids : List Int) (idx : Nat) :
    (addRouteClients db rid ids idx).filter (fun rc => rc.route_id == rid) =
      addRouteClients db rid ids idx := by
  apply List.filter_eq_self.mpr
  intro rc hrc
  have := (addRouteClients_fields db rid ids idx rc hrc).1
  simp [this]

theorem filter_route_id_fresh (l : List RouteClient) (rid : Int)
    (h : ∀ rc ∈ l, rc.route_id ≠ rid) :
    l.filter (fun rc => rc.route_id == rid) = [] := by
  apply List.eq_nil_iff_forall_not_mem.mpr
  intro rc hrc
  rw [List.mem_filter] at hrc
  exact absurd (by simpa using hrc.2) (h rc hrc.1)

theorem filter_route_id_removed (l : List RouteClient) (rid : Int) :
    (l.filter (fun rc => !(rc.route_id == rid))).filter (fun rc => rc.route_id == rid) = [] := by
  apply filter_route_id_fresh
  intro rc hrc
  rw [List.mem_filter] at hrc
  simpa using hrc.2

/-- A fixed anonymous client row used by the concrete examples. -/
def sampleClient (i : Int) : Client :=
  { id := i, name := "c", contact_name := none, contact_phone := none,
    contact_email := none, notes := none, address := none,
    latitude := none, longitude := none }

/-- Store with the single client id 1. -/
def dbOneClient : DB :=
  { users := [], invite_codes := [], clients := [sampleClient 1], visit_logs := [],
    routes := [], route_clients := [], assignments := [], route_templates := [] }

/-- Store with clients 1, 2, 3 and no routes. -/
def dbThree : DB :=
  { users := [], invite_codes := [],
    clients := [sampleClient 1, sampleClient 2, sampleClient 3], visit_logs := [],
    routes := [], route_clients := [], assignments := [], route_templates := [] }

/-- Store with clients 1, 2, 3 and one empty route with id 1. -/
def dbRoute : DB :=
  { users := [], invite_codes := [],
    clients := [sampleClient 1, sampleClient 2, sampleClient 3], visit_logs := [],
    routes := [{ id := 1, name := "r", description := none }], route_clients := [],
    assignments := [], route_templates := [] }

def routeBodyGap : RouteCreate := { name := "r", description := none, client_ids := [999, 1] }

def routeBodyA : RouteCreate := { name := "r", description := none, client_ids := [3, 1, 2] }

def routeBodyB : RouteCreate := { name := "r", description := none, client_ids := [2, 3] }

/-- C2 counterexample: creating a route from the list `[999, 1]` when only
client 1 exists stores a single membership row whose position is 1, not 0 —
the positions are not contiguous from 0, because the enumerate index of a
skipped unknown id is never reused. -/
theorem create_route_positions_gap :
    (routeClientsOf (create_route dbOneClient routeBodyGap).1
        (create_route dbOneClient routeBodyGap).2).map (fun rc => rc.position) = [1] ∧
    (routeClientsOf (create_route dbOneClient routeBodyGap).1
        (create_route dbOneClient routeBodyGap).2).length = 1 ∧
    (routeClientsOf (create_route dbOneClient routeBodyGap).1
          (create_route dbOneClient routeBodyGap).2).map (fun rc => rc.position) ≠
      List.range
        (routeClientsOf (create_route dbOneClient routeBodyGap).1
            (create_route dbOneClient routeBodyGap).2).length := by
  decide

/-- C2 amended: after `update_route` (and likewise `create_route` and
`create_route_from_template`, whose fresh route id has no prior membership
rows), the affected route's membership rows carry the enumerate indices of
the submitted ids whose client exists: the positions are strictly increasing
(hence unique), and they are exactly `{0, …, n-1}` when every submitted
client id exists; a nonexistent id leaves a gap at its index. -/
theorem route_membership_positions (db : DB) (rid tid : Int) (body : RouteCreate)
    (nm : Option String) (today : String)
    (hroute : (db.routes.find? (fun r => r.id == rid)).isSome) :
    routeClientsOf (update_route db rid body).1 rid = addRouteClients db rid body.client_ids 0 ∧
    (routeClientsOf (update_route db rid body).1 rid).Pairwise
      (fun a b => a.position < b.position) ∧
    ((∀ cid ∈ body.client_ids, (db.findClient cid).isSome) →
      (routeClientsOf (update_route db rid body).1 rid).map (fun rc => rc.position) =
        List.range body.client_ids.length) ∧
    ((∀ rc ∈ db.route_clients, rc.route_id ≠ (create_route db body).2) →
      routeClientsOf (create_route db body).1 (create_route db body).2 =
        addRouteClients db (create_route db body).2 body.client_ids 0) ∧
    (addRouteClients db (create_route db body).2 body.client_ids 0).Pairwise
      (fun a b => a.position < b.position) ∧
    ((∀ cid ∈ body.client_ids, (db.findClient cid).isSome) →
      (addRouteClients db (create_route db body).2 body.client_ids 0).map
          (fun rc => rc.position) = List.range body.client_ids.length) ∧
    (∀ t, db.route_templates.find? (fun x => x.id == tid) = some t →
      (∀ rc ∈ db.route_clients, rc.route_id ≠ nextId (db.routes.map (fun r => r.id))) →
      routeClientsOf (create_route_from_template db tid nm today).1
          (nextId (db.routes.map (fun r => r.id))) =
        addRouteClients db (nextId (db.routes.map (fun r => r.id))) t.client_ids 0 ∧
      (addRouteClients db (nextId (db.routes.map (fun r => r.id))) t.client_ids 0).Pairwise
        (fun a b => a.position < b.position)) := by
  obtain ⟨r0, hr0⟩ := Option.isSome_iff_exists.mp hroute
  have hupd : routeClientsOf (update_route db rid body).1 rid =
      addRouteClients db rid body.client_ids 0 := by
    simp only [update_route, hr0, routeClientsOf, List.filter_append,
      filter_route_id_removed, filter_route_id_addRouteClients, List.nil_append]
  refine ⟨hupd, ?_, ?_, ?_, ?_, ?_, ?_⟩
  · rw [hupd]; exact addRouteClients_positions_pairwise db rid body.client_ids 0
  · intro hall
    rw [hupd, (addRouteClients_all_found db rid body.client_ids 0 hall).2,
      List.range_eq_range']
  · intro hfresh
    have hfresh2 : ∀ rc ∈ db.route_clients,
        rc.route_id ≠ nextId (db.routes.map (fun r => r.id)) := hfresh
    simp only [create_route, routeClientsOf, List.filter_append,
      filter_route_id_fresh db.route_clients _ hfresh2,
      filter_route_id_addRouteClients, List.nil_append]
  · exact addRouteClients_positions_pairwise db _ body.client_ids 0
  · intro hall
    rw [(addRouteClients_all_found db _ body.client_ids 0 hall).2, List.range_eq_range']
  · intro t ht hfresh
    constructor
    · simp only [create_route_from_template, ht, routeClientsOf, List.filter_append,
        filter_route_id_fresh db.route_clients _ hfresh,
        filter_route_id_addRouteClients, List.nil_append]
    · exact addRouteClients_positions_pairwise db _ t.client_ids 0

theorem route_membership_positions_witness :
    ((dbRoute.routes.find? (fun r => r.id == 1)).isSome) ∧
    routeClientsOf (update_route dbRoute 1 routeBodyB).1 1 =
      addRouteClients dbRoute 1 routeBodyB.client_ids 0 :=
  ⟨by decide, (route_membership_positions dbRoute 1 0 routeBodyB none "" (by decide)).1⟩

/-- C3: `update_route` fully replaces a route's membership: afterwards the
route's rows are exactly the re-inserted list (position = 0-based index among
the submitted ids that exist), other routes' rows are untouched, and with all
submitted ids existing the stored (client, position) pairs are the submitted
list zipped with `0, 1, …`.  Concretely on a store with clients 1, 2, 3:
creating a route with `[3, 1, 2]` stores pairs `(3,0), (1,1), (2,2)` and then
updating it with `[2, 3]` leaves exactly `(2,0), (3,1)`. -/
theorem update_route_full_replacement (db : DB) (rid : Int) (body : RouteCreate)
    (hroute : (db.routes.find? (fun r => r.id == rid)).isSome) :
    (update_route db rid body).2 = Except.ok () ∧
    routeClientsOf (update_route db rid body).1 rid = addRouteClients db rid body.client_ids 0 ∧
    (∀ other, other ≠ rid →
      routeClientsOf (update_route db rid body).1 other = routeClientsOf db other) ∧
    ((∀ cid ∈ body.client_ids, (db.findClient cid).isSome) →
      (routeClientsOf (update_route db rid body).1 rid).map
          (fun rc => (rc.client_id, rc.position)) =
        body.client_ids.zip (List.range body.client_ids.length)) ∧
    (routeClientsOf (create_route dbThree routeBodyA).1 (create_route dbThree routeBodyA).2).map
        (fun rc => (rc.client_id, rc.position)) = [(3, 0), (1, 1), (2, 2)] ∧
    (routeClientsOf
          (update_route (create_route dbThree routeBodyA).1
              (create_route dbThree routeBodyA).2 routeBodyB).1
          (create_route dbThree routeBodyA).2).map
        (fun rc => (rc.client_id, rc.position)) = [(2, 0), (3, 1)] := by
  obtain ⟨r0, hr0⟩ := Option.isSome_iff_exists.mp hroute
  have hupd : routeClientsOf (update_route db rid body).1 rid =
      addRouteClients db rid body.client_ids 0 := by
    simp only [update_route, hr0, routeClientsOf, List.filter_append,
      filter_route_id_removed, filter_route_id_addRouteClients, List.nil_append]
  refine ⟨by simp [update_route, hr0], hupd, ?_, ?_, by decide, by decide⟩
  · intro other hother
    simp only [update_route, hr0, routeClientsOf, List.filter_append]
    have h2 : (addRouteClients db rid body.client_ids 0).filter
        (fun rc => rc.route_id == other) = [] := by
      apply filter_route_id_fresh
      intro rc hrc
      rw [(addRouteClients_fields db rid body.client_ids 0 rc hrc).1]
      exact fun h => hother h.symm
    rw [h2, List.append_nil, List.filter_filter]
    apply List.filter_congr
    intro rc _
    by_cases hcase : rc.route_id = other
    · simp [hcase, hother]
    · simp [hcase]
  · intro hall
    obtain ⟨h1, h2⟩ := addRouteClients_all_found db rid body.client_ids 0 hall
    rw [hupd, ← List.zip_map']
    rw [h1, h2, List.range_eq_range']

theorem update_route_full_replacement_witness :
    ((dbRoute.routes.find? (fun r => r.id == 1)).isSome) ∧
    (update_route dbRoute 1 routeBodyA).2 = Except.ok () :=
  ⟨by decide, (update_route_full_replacement dbRoute 1 routeBodyA (by decide)).1⟩

/-- Stand-in for `passlib`'s bcrypt hash (`get_password_hash` in
`src/app/auth.py`): the handlers only store the hash and compare it through
`verify_password`; no claim inspects its value, so any injective tagging
serves. -/
def get_password_hash (password : String) : String :=
  "bcrypt$" ++ password

/-- The decoded JWT claims that `get_current_user` reads: only the `sub`
claim matters to the guards. -/
structure JWTPayload where
  sub : Option String
deriving Repr, DecidableEq

instance {ε α : Type} [DecidableEq ε] [DecidableEq α] : DecidableEq (Except ε α) := fun a b =>
  match a, b with
  | Except.error e, Except.error f =>
    if h : e = f then isTrue (by rw [h]) else isFalse (by intro hh; cases hh; exact h rfl)
  | Except.error _, Except.ok _ => isFalse (by intro hh; cases hh)
  | Except.ok _, Except.error _ => isFalse (by intro hh; cases hh)
  | Except.ok x, Except.ok y =>
    if h : x = y then isTrue (by rw [h]) else isFalse (by intro hh; cases hh; exact h rfl)

def parseNatAux : Nat → List Char → Option Nat
  | acc, [] => some acc
  | acc, c :: cs =>
    if c.isDigit then parseNatAux (acc * 10 + (c.toNat - 48)) cs else none

def parseNat? (cs : List Char) : Option Nat :=
  match cs with
  | [] => none
  | _ => parseNatAux 0 cs

/-- Decimal parser standing in for Python `int(user_id_str)` in
`get_current_user`: an optional sign followed by one or more ASCII digits;
anything else raises `ValueError`, modelled as `none`.  (Python `int` also
tolerates surrounding whitespace and underscores; such subjects never parse
to the id of any user the app issued a token for, and no claim depends on
them.) -/
def pyInt? (s : String) : Option Int :=
  match s.data with
  | [] => none
  | '-' :: cs => (parseNat? cs).map (fun n => -(n : Int))
  | '+' :: cs => (parseNat? cs).map (fun n => (n : Int))
  | cs => (parseNat? cs).map (fun n => (n : Int))

/-- `get_current_user` (`src/app/auth.py` lines 59-92).  `decode` stands for
`decode_token` (signature/expiry validation inside the `jose` library, which
returns `None` on any invalid token); the guard then requires a `sub` claim,
an integer parse (`int(user_id_str)`), and an active user with that id,
raising 401 at each failure. -/
def get_current_user (db : DB) (decode : String → Option JWTPayload)
    (credentials : Option String) : Except Nat User :=
  match credentials with
  | none => Except.error 401
  | some tok =>
    match decode tok with
    | none => Except.error 401
    | some payload =>
      match payload.sub with
      | none => Except.error 401
      | some s =>
        match pyInt? s with
        | none => Except.error 401
        | some uid =>
          match db.users.find? (fun u => u.id == uid && u.is_active) with
          | none => Except.error 401
          | some u => Except.ok u

/-- `get_current_admin` (`src/app/auth.py` lines 95-104): the authenticated
guard first, then 403 unless the resolved user's role is `"admin"`. -/
def get_current_admin (db : DB) (decode : String → Option JWTPayload)
    (credentials : Option String) : Except Nat User :=
  match get_current_user db decode credentials with
  | Except.error e => Except.error e
  | Except.ok u => if u.role ≠ "admin" then Except.error 403 else Except.ok u

/-- Request body `UserCreateByAdmin` (`src/app/main.py`). -/
structure UserCreateByAdmin where
  email : String
  password : String
  name : String
  role : String
deriving Repr, DecidableEq

/-- `create_user` handler body (`src/app/main.py` lines 436-457), after the
admin guard: 400 on duplicate email, otherwise insert the user (active by
default) and return its id. -/
def create_user (db : DB) (user_data : UserCreateByAdmin) : DB × Except Nat Int :=
  if (db.users.find? (fun u => u.email == user_data.email)).isSome then
    (db, Except.error 400)
  else
    let uid := nextId (db.users.map (fun u => u.id))
    let new_user : User :=
      { id := uid, email := user_data.email,
        password_hash := get_password_hash user_data.password,
        name := user_data.name, role := user_data.role, is_active := true }
    ({ db with users := db.users ++ [new_user] }, Except.ok uid)

/-- `delete_client` handler body (`src/app/main.py` lines 1087-1110), after
the admin guard: 404 when missing, otherwise delete the membership rows of
the client, the client row, and (ORM cascade on `Client.visit_logs`) its
visit logs. -/
def delete_client (db : DB) (client_id : Int) : DB × Except Nat Unit :=
  match db.findClient client_id with
  | none => (db, Except.error 404)
  | some _ =>
    ({ db with
        route_clients := db.route_clients.filter (fun rc => !(rc.client_id == client_id)),
        clients := db.clients.filter (fun c => !(c.id == client_id)),
        visit_logs := db.visit_logs.filter (fun v => !(v.client_id == client_id)) },
      Except.ok ())

/-- `POST /api/users` with its `Depends(get_current_admin)` guard: the
dependency runs before the handler, so a guard failure returns the error with
the store untouched. -/
def create_user_endpoint (db : DB) (decode : String → Option JWTPayload)
    (credentials : Option String) (user_data : UserCreateByAdmin) : DB × Except Nat Int :=
  match get_current_admin db decode credentials with
  | Except.error e => (db, Except.error e)
  | Except.ok _ => create_user db user_data

/-- `DELETE /api/clients/{id}` with its `Depends(get_current_admin)` guard. -/
def delete_client_endpoint (db : DB) (decode : String → Option JWTPayload)
    (credentials : Option String) (client_id : Int) : DB × Except Nat Unit :=
  match get_current_admin db decode credentials with
  | Except.error e => (db, Except.error e)
  | Except.ok _ => delete_client db client_id

/-- C5: a token resolving (through the authenticated guard) to a user whose
role is not `"admin"` is rejected by the admin guard with 403, and an
admin-only endpoint behind that guard returns 403 without touching the store;
a missing credential gives 401, any authenticated-guard error propagates
unchanged through the admin guard, and the admin guard only ever resolves a
user whose role is `"admin"`. -/
theorem admin_guard_spec (db : DB) (decode : String → Option JWTPayload)
    (credentials : Option String) (u : User)
    (hu : get_current_user db decode credentials = Except.ok u)
    (hrole : u.role ≠ "admin") :
    get_current_admin db decode credentials = Except.error 403 ∧
    (∀ body, create_user_endpoint db decode credentials body = (db, Except.error 403)) ∧
    (∀ cid, delete_client_endpoint db decode credentials cid = (db, Except.error 403)) ∧
    (∀ v, get_current_admin db decode credentials ≠ Except.ok v) ∧
    (∀ (db2 : DB) (decode2 : String → Option JWTPayload),
      get_current_user db2 decode2 none = Except.error 401) ∧
    (∀ (db2 : DB) (decode2 : String → Option JWTPayload) (creds2 : Option String) (e : Nat),
      get_current_user db2 decode2 creds2 = Except.error e →
        get_current_admin db2 decode2 creds2 = Except.error e) ∧
    (∀ (db2 : DB) (decode2 : String → Option JWTPayload) (creds2 : Option String) (v : User),
      get_current_admin db2 decode2 creds2 = Except.ok v →
        get_current_user db2 decode2 creds2 = Except.ok v ∧ v.role = "admin") := by
  have hadmin : get_current_admin db decode credentials = Except.error 403 := by
    simp [get_current_admin, hu, hrole]
  refine ⟨hadmin, ?_, ?_, ?_, ?_, ?_, ?_⟩
  · intro body; simp [create_user_endpoint, hadmin]
  · intro cid; simp [delete_client_endpoint, hadmin]
  · intro v; simp [hadmin]
  · intro db2 decode2; rfl
  · intro db2 decode2 creds2 e he; simp [get_current_admin, he]
  · intro db2 decode2 creds2 v hv
    unfold get_current_admin at hv
    cases hgc : get_current_user db2 decode2 creds2 with
    | error e => rw [hgc] at hv; exact absurd hv (by simp)
    | ok w =>
      rw [hgc] at hv
      simp only [] at hv
      by_cases hw : w.role = "admin"
      · rw [if_neg (by simp [hw])] at hv
        rw [Except.ok.injEq] at hv
        subst hv
        exact ⟨rfl, hw⟩
      · rw [if_pos hw] at hv
        exact absurd hv (by simp)

/-- Member user for the guard examples. -/
def memberUser : User :=
  { id := 1, email := "m@x", password_hash := "h", name := "M",
    role := "member", is_active := true }

/-- Store with the single active member user. -/
def dbMember : DB :=
  { users := [memberUser], invite_codes := [], clients := [], visit_logs := [],
    routes := [], route_clients := [], assignments := [], route_templates := [] }

/-- Decoder mapping every bearer token to claims with subject `"1"`. -/
def decodeSub1 : String → Option JWTPayload :=
  fun _ => some { sub := some "1" }

theorem admin_guard_spec_witness :
    get_current_user dbMember decodeSub1 (some "tok") = Except.ok memberUser ∧
    memberUser.role ≠ "admin" ∧
    get_current_admin dbMember decodeSub1 (some "tok") = Except.error 403 :=
  ⟨by decide, by decide,
    (admin_guard_spec dbMember decodeSub1 (some "tok") memberUser (by decide) (by decide)).1⟩

/-- Request body `UserCreate` for `POST /api/auth/register` (`src/app/main.py`). -/
structure UserCreate where
  email : String
  password : String
  name : String
  invite_code : Option String
deriving Repr, DecidableEq

/-- The member user that a successful registration inserts. -/
def newUserOf (db : DB) (req : UserCreate) : User :=
  { id := nextId (db.users.map (fun u => u.id)), email := req.email,
    password_hash := get_password_hash req.password, name := req.name,
    role := "member", is_active := true }

/-- The invite-code query inside `register` (`src/app/main.py` lines 374-378):
`code == submitted AND used_by IS NULL AND expires_at > now`. -/
def findValidInvite (db : DB) (now : Int) (code : String) : Option InviteCode :=
  db.invite_codes.find? (fun ic =>
    ic.code == code && ic.used_by.isNone && decide (now < ic.expires_at))

/-- `register` (`src/app/main.py` lines 362-401): 400 on duplicate email; 400
when no invite code is submitted (`if not user_data.invite_code` — Python
truthiness also rejects the empty string); 400 when no invite row matches the
valid-code query; otherwise create the member user and mark the invite row
consumed by the new user's id.  Every 400 is raised before any insert, so the
store is returned unchanged on failure. -/
def register (db : DB) (now : Int) (user_data : UserCreate) : DB × Except Nat Int :=
  if (db.users.find? (fun u => u.email == user_data.email)).isSome then
    (db, Except.error 400)
  else
    match user_data.invite_code with
    | none => (db, Except.error 400)
    | some code =>
      if code = "" then (db, Except.error 400)
      else
        match findValidInvite db now code with
        | none => (db, Except.error 400)
        | some invite =>
          let uid := nextId (db.users.map (fun u => u.id))
          ({ db with
              users := db.users ++ [newUserOf db user_data],
              invite_codes := db.invite_codes.map (fun ic =>
                if ic.id == invite.id then { ic with used_by := some uid } else ic) },
            Except.ok uid)

theorem register_error_of_invalid (db : DB) (now : Int) (req : UserCreate) (code : String)
    (hc : req.invite_code = some code) (hnone : findValidInvite db now code = none) :
    (register db now req).2 = Except.error 400 := by
  by_cases he : (db.users.find? (fun u => u.email == req.email)).isSome
  · simp only [register, if_pos he]
  · simp only [register, if_neg he, hc, hnone]
    split
    · rfl
    · rfl

/-- C4: registration succeeds only with an invite code that exists, is
unconsumed and unexpired (`expires_at > now`); a used/expired/unknown code
yields a 400 with the store unchanged (no user created); with a valid code
and a fresh email the registration succeeds, inserts the member user and
marks the code consumed by the new user's id — after which a second
registration with the same code fails with 400.  The `Nodup` hypothesis is
the table's unique index on `invite_codes.code`. -/
theorem register_invite_code_spec (db : DB) (now now2 : Int) (req req2 : UserCreate)
    (code : String) (ic : InviteCode)
    (hcodes : (db.invite_codes.map (fun i => i.code)).Nodup) :
    (∀ uid, (register db now req).2 = Except.ok uid →
      ∃ c, req.invite_code = some c ∧ (findValidInvite db now c).isSome) ∧
    (req.invite_code = some code → findValidInvite db now code = none →
      register db now req = (db, Except.error 400)) ∧
    (req.invite_code = some code → code ≠ "" →
      findValidInvite db now code = some ic →
      (db.users.find? (fun u => u.email == req.email)) = none →
      (register db now req).2 = Except.ok (nextId (db.users.map (fun u => u.id))) ∧
      (register db now req).1.users = db.users ++ [newUserOf db req] ∧
      { ic with used_by := some (nextId (db.users.map (fun u => u.id))) } ∈
        (register db now req).1.invite_codes ∧
      (req2.invite_code = some code →
        (register (register db now req).1 now2 req2).2 = Except.error 400)) := by
  refine ⟨?_, ?_, ?_⟩
  · intro uid hok
    unfold register at hok
    by_cases he : (db.users.find? (fun u => u.email == req.email)).isSome
    · rw [if_pos he] at hok; exact absurd hok (by simp)
    · rw [if_neg he] at hok
      cases hreq : req.invite_code with
      | none => rw [hreq] at hok; exact absurd hok (by simp)
      | some c =>
        rw [hreq] at hok
        simp only [] at hok
        by_cases hce : c = ""
        · rw [if_pos hce] at hok; exact absurd hok (by simp)
        · rw [if_neg hce] at hok
          cases hfind : findValidInvite db now c with
          | none => rw [hfind] at hok; exact absurd hok (by simp)
          | some j => exact ⟨c, rfl, by simp [hfind]⟩
  · intro hc hnone
    by_cases he : (db.users.find? (fun u => u.email == req.email)).isSome
    · simp only [register, if_pos he]
    · simp only [register, if_neg he, hc, hnone]
      split
      · rfl
      · rfl
  · intro hc hce hfind hemail
    have he : ¬(db.users.find? (fun u => u.email == req.email)).isSome = true := by
      simp [hemail]
    have hic_mem : ic ∈ db.invite_codes := List.mem_of_find?_eq_some hfind
    have hic_pred := List.find?_some hfind
    have hic_code : ic.code = code := by
      simp only [Bool.and_eq_true, beq_iff_eq] at hic_pred
      exact hic_pred.1.1
    have hres : register db now req =
        ({ db with
            users := db.users ++ [newUserOf db req],
            invite_codes := db.invite_codes.map (fun i =>
              if i.id == ic.id then
                { i with used_by := some (nextId (db.users.map (fun u => u.id))) }
              else i) },
          Except.ok (nextId (db.users.map (fun u => u.id)))) := by
      simp only [register, if_neg he, hc, if_neg hce, hfind]
    refine ⟨by rw [hres], by rw [hres], ?_, ?_⟩
    · rw [hres]
      have := List.mem_map_of_mem (fun i =>
        if i.id == ic.id then
          { i with used_by := some (nextId (db.users.map (fun u => u.id))) }
        else i) hic_mem
      simpa using this
    · intro hc2
      have hnone2 : findValidInvite (register db now req).1 now2 code = none := by
        apply List.find?_eq_none.mpr
        intro x hx
        rw [hres] at hx
        simp only [List.mem_map] at hx
        obtain ⟨i, hi, hxi⟩ := hx
        by_cases hid : i.id = ic.id
        · rw [← hxi]
          simp [hid]
        · rw [← hxi]
          have hine : i.code ≠ code := by
            intro hicode
            exact hid (congrArg InviteCode.id
              (List.inj_on_of_nodup_map hcodes hi hic_mem
                (by rw [hicode, hic_code])))
          simp [hid, hine]
      exact register_error_of_invalid (register db now req).1 now2 req2 code hc2 hnone2

/-- Seed admin user for the registration example. -/
def adminSeed : User :=
  { id := 1, email := "admin@routeview.local", password_hash := "h", name := "Admin",
    role := "admin", is_active := true }

/-- An unused invite code expiring at time 100, issued by the seed admin. -/
def inviteFresh : InviteCode :=
  { id := 1, code := "CODE", created_by := 1, used_by := none, expires_at := 100 }

/-- Store with the seed admin and one fresh invite code. -/
def dbInvite : DB :=
  { users := [adminSeed], invite_codes := [inviteFresh], clients := [], visit_logs := [],
    routes := [], route_clients := [], assignments := [], route_templates := [] }

def regReq : UserCreate :=
  { email := "b@x", password := "pw", name := "B", invite_code := some "CODE" }

def regReq2 : UserCreate :=
  { email := "c@x", password := "pw", name := "C", invite_code := some "CODE" }

theorem register_invite_code_spec_witness :
    (dbInvite.invite_codes.map (fun i => i.code)).Nodup ∧
    (∀ uid, (register dbInvite 50 regReq).2 = Except.ok uid →
      ∃ c, regReq.invite_code = some c ∧ (findValidInvite dbInvite 50 c).isSome) :=
  ⟨by decide,
    (register_invite_code_spec dbInvite 50 60 regReq regReq2 "CODE" inviteFresh
      (by decide)).1⟩

/-- `get_schedule` (`src/app/main.py` lines 652-691): filter assignments to
the date range, then scope by role: a non-admin caller is always restricted
to their own `user_id`; an admin is filtered by the `user_id` query parameter
when it is truthy (`elif user_id:` — `None` and `0` are both falsy in
Python).  The handler decorates each row with route/user names and sorts by
date; the claims concern which assignment rows are returned, so the rows
themselves are returned here. -/
def get_schedule (db : DB) (current : User) (start_date end_date : Int)
    (user_id : Option Int) : List RouteAssignment :=
  let base := db.assignments.filter (fun a =>
    decide (start_date ≤ a.assigned_date) && decide (a.assigned_date ≤ end_date))
  if current.role ≠ "admin" then
    base.filter (fun a => a.user_id == current.id)
  else
    match user_id with
    | some uid => if uid ≠ 0 then base.filter (fun a => a.user_id == uid) else base
    | none => base

/-- C6: for a non-admin caller the result of `GET /api/schedule` is the same
for every value (or absence) of the `user_id` parameter, and it consists of
exactly the caller's own assignments in the date range; for an admin caller a
truthy `user_id` parameter filters to that user's assignments. -/
theorem schedule_nonadmin_scoped (db : DB) (current : User) (s e : Int)
    (h : current.role ≠ "admin") :
    (∀ p q : Option Int, get_schedule db current s e p = get_schedule db current s e q) ∧
    (∀ (p : Option Int) (a : RouteAssignment),
      a ∈ get_schedule db current s e p ↔
        a ∈ db.assignments ∧ s ≤ a.assigned_date ∧ a.assigned_date ≤ e ∧
          a.user_id = current.id) ∧
    (∀ (adm : User), adm.role = "admin" → ∀ uid : Int, uid ≠ 0 →
      ∀ a : RouteAssignment,
        a ∈ get_schedule db adm s e (some uid) ↔
          a ∈ db.assignments ∧ s ≤ a.assigned_date ∧ a.assigned_date ≤ e ∧
            a.user_id = uid) := by
  refine ⟨?_, ?_, ?_⟩
  · intro p q
    simp only [get_schedule, if_pos h]
  · intro p a
    simp only [get_schedule, if_pos h, List.mem_filter, Bool.and_eq_true,
      decide_eq_true_eq, beq_iff_eq]
    tauto
  · intro adm hadm uid huid a
    have hnn : ¬adm.role ≠ "admin" := by simp [hadm]
    simp only [get_schedule, if_neg hnn, if_pos huid, List.mem_filter,
      Bool.and_eq_true, decide_eq_true_eq, beq_iff_eq]
    tauto

/-- Two assignments, one for user 1 and one for user 2, both on day 10. -/
def dbSched : DB :=
  { users := [memberUser], invite_codes := [], clients := [], visit_logs := [],
    routes := [], route_clients := [],
    assignments :=
      [{ route_id := 1, user_id := 1, assigned_date := 10, status := "pending" },
        { route_id := 1, user_id := 2, assigned_date := 10, status := "pending" }],
    route_templates := [] }

theorem schedule_nonadmin_scoped_witness :
    memberUser.role ≠ "admin" ∧
    (∀ p q : Option Int,
      get_schedule dbSched memberUser 0 20 p = get_schedule dbSched memberUser 0 20 q) :=
  ⟨by decide, (schedule_nonadmin_scoped dbSched memberUser 0 20 (by decide)).1⟩

/-- Request body `BatchAssignmentCreate` (`src/app/main.py`); the ISO date
strings are represented by their parsed day ordinals (`datetime.strptime(d,
"%Y-%m-%d").date()` — the duplicate check compares parsed dates). -/
structure BatchAssignmentCreate where
  route_id : Int
  user_id : Int
  dates : List Int
deriving Repr, DecidableEq

/-- The existing-assignment query (`src/app/main.py` lines 716-720):
is there a row with this (route, user, date) triple? -/
def hasAssignment (asgns : List RouteAssignment) (rid uid d : Int) : Bool :=
  asgns.any (fun a => a.route_id == rid && a.user_id == uid && a.assigned_date == d)

/-- The row inserted for one date of the batch (status defaults to
`"pending"`). -/
def newAssignment (rid uid d : Int) : RouteAssignment :=
  { route_id := rid, user_id := uid, assigned_date := d, status := "pending" }

/-- One iteration of the batch loop: skip (counting) when the triple already
exists, insert (counting) otherwise. -/
def batchStep (rid uid : Int) (acc : List RouteAssignment × Nat × Nat) (d : Int) :
    List RouteAssignment × Nat × Nat :=
  if hasAssignment acc.1 rid uid d then
    (acc.1, acc.2.1, acc.2.2 + 1)
  else
    (acc.1 ++ [newAssignment rid uid d], acc.2.1 + 1, acc.2.2)

/-- The whole loop of `batch_assign_routes`, threading (pending rows, created,
skipped). -/
def batchFold (rid uid : Int) (dates : List Int) (l : List RouteAssignment)
    (c s : Nat) : List RouteAssignment × Nat × Nat :=
  dates.foldl (batchStep rid uid) (l, c, s)

/-- `batch_assign_routes` (`src/app/main.py` lines 694-735): 404 when the
route or the active user is missing, otherwise loop over the dates with the
per-date duplicate check and report the created/skipped counts.

Modelled from the spec: `src/app/database.py` (the session factory) is not
under `src/`; per the spec's concurrency section each request runs against
one transactional database session, so the existing-assignment query inside
the loop observes the rows this same request has already added. -/
def batch_assign_routes (db : DB) (data : BatchAssignmentCreate) :
    DB × Except Nat (Nat × Nat) :=
  if (db.routes.find? (fun r => r.id == data.route_id)).isNone then
    (db, Except.error 404)
  else if (db.users.find? (fun u => u.id == data.user_id && u.is_active)).isNone then
    (db, Except.error 404)
  else
    let res := batchFold data.route_id data.user_id data.dates db.assignments 0 0
    ({ db with assignments := res.1 }, Except.ok (res.2.1, res.2.2))

/-- No two rows share the (route, user, date) triple. -/
def noDupTriples (l : List RouteAssignment) : Prop :=
  l.Pairwise (fun a b =>
    ¬(a.route_id = b.route_id ∧ a.user_id = b.user_id ∧ a.assigned_date = b.assigned_date))

instance (l : List RouteAssignment) : Decidable (noDupTriples l) :=
  inferInstanceAs (Decidable (l.Pairwise (fun (a b : RouteAssignment) =>
    ¬(a.route_id = b.route_id ∧ a.user_id = b.user_id ∧ a.assigned_date = b.assigned_date))))

theorem hasAssignment_append (l m : List RouteAssignment) (rid uid d : Int) :
    hasAssignment (l ++ m) rid uid d =
      (hasAssignment l rid uid d || hasAssignment m rid uid d) := by
  simp [hasAssignment, List.any_append]

theorem hasAssignment_of_props (l : List RouteAssignment) (a : RouteAssignment)
    (ha : a ∈ l) (rid uid d : Int) (h1 : a.route_id = rid) (h2 : a.user_id = uid)
    (h3 : a.assigned_date = d) : hasAssignment l rid uid d = true := by
  simp only [hasAssignment, List.any_eq_true]
  exact ⟨a, ha, by simp [h1, h2, h3]⟩

theorem hasAssignment_false_of_append (l m : List RouteAssignment) (rid uid d : Int)
    (h : hasAssignment (l ++ m) rid uid d = false) : hasAssignment l rid uid d = false := by
  rw [hasAssignment_append] at h
  exact (Bool.or_eq_false_iff.mp h).1

theorem noDupTriples_append_single (l : List RouteAssignment) (row : RouteAssignment)
    (hl : noDupTriples l)
    (h : hasAssignment l row.route_id row.user_id row.assigned_date = false) :
    noDupTriples (l ++ [row]) := by
  rw [noDupTriples, List.pairwise_append]
  refine ⟨hl, List.pairwise_singleton _ _, ?_⟩
  intro a ha b hb
  rw [List.mem_singleton] at hb
  intro hcontra
  have htrue : hasAssignment l row.route_id row.user_id row.assigned_date = true := by
    apply hasAssignment_of_props l a ha
    · rw [hcontra.1, hb]
    · rw [hcontra.2.1, hb]
    · rw [hcontra.2.2, hb]
  rw [h] at htrue
  exact Bool.false_ne_true htrue

theorem batchFold_nil (rid uid : Int) (l : List RouteAssignment) (c s : Nat) :
    batchFold rid uid [] l c s = (l, c, s) := rfl

theorem batchFold_cons (rid uid d : Int) (ds : List Int) (l : List RouteAssignment)
    (c s : Nat) :
    batchFold rid uid (d :: ds) l c s =
      if hasAssignment l rid uid d then batchFold rid uid ds l c (s + 1)
      else batchFold rid uid ds (l ++ [newAssignment rid uid d]) (c + 1) s := by
  simp only [batchFold, List.foldl_cons, batchStep]
  split
  · rfl
  · rfl

theorem batchFold_spec (rid uid : Int) :
    ∀ (dates : List Int) (l : List RouteAssignment) (c s : Nat),
      ∃ news : List RouteAssignment,
        (batchFold rid uid dates l c s).1 = l ++ news ∧
        (batchFold rid uid dates l c s).2.1 + (batchFold rid uid dates l c s).2.2 =
          c + s + dates.length ∧
        news.length + c = (batchFold rid uid dates l c s).2.1 ∧
        (∀ a ∈ news, a.route_id = rid ∧ a.user_id = uid ∧ a.assigned_date ∈ dates ∧
          a.status = "pending" ∧ hasAssignment l rid uid a.assigned_date = false) ∧
        (noDupTriples l → noDupTriples (l ++ news)) ∧
        (∀ d ∈ dates, hasAssignment (batchFold rid uid dates l c s).1 rid uid d = true) := by
  intro dates
  induction dates with
  | nil =>
    intro l c s
    refine ⟨[], by simp [batchFold_nil], by simp [batchFold_nil], by simp [batchFold_nil],
      by simp, ?_, by simp⟩
    intro h
    simpa using h
  | cons d ds ih =>
    intro l c s
    rw [batchFold_cons]
    by_cases h : hasAssignment l rid uid d = true
    · rw [if_pos h]
      obtain ⟨news, h1, h2, h3, h4, h5, h6⟩ := ih l c (s + 1)
      refine ⟨news, h1, by simp only [List.length_cons]; omega,
        by omega, ?_, h5, ?_⟩
      · intro a ha
        obtain ⟨p1, p2, p3, p4, p5⟩ := h4 a ha
        exact ⟨p1, p2, List.mem_cons_of_mem d p3, p4, p5⟩
      · intro d2 hd2
        rcases List.mem_cons.mp hd2 with hd2 | hd2
        · rw [hd2, h1, hasAssignment_append, h]
          rfl
        · exact h6 d2 hd2
    · rw [if_neg h]
      have hb : hasAssignment l rid uid d = false := by
        cases hcase : hasAssignment l rid uid d
        · rfl
        · exact absurd hcase h
      obtain ⟨news, h1, h2, h3, h4, h5, h6⟩ := ih (l ++ [newAssignment rid uid d]) (c + 1) s
      refine ⟨newAssignment rid uid d :: news, ?_, by simp only [List.length_cons]; omega,
        by simp only [List.length_cons]; omega, ?_, ?_, ?_⟩
      · rw [h1, List.append_assoc, List.singleton_append]
      · intro a ha
        rcases List.mem_cons.mp ha with ha | ha
        · subst ha
          exact ⟨rfl, rfl, List.mem_cons_self d ds, rfl, hb⟩
        · obtain ⟨p1, p2, p3, p4, p5⟩ := h4 a ha
          exact ⟨p1, p2, List.mem_cons_of_mem d p3, p4,
            hasAssignment_false_of_append l _ rid uid a.assigned_date p5⟩
      · intro hl
        have hl2 : noDupTriples (l ++ [newAssignment rid uid d]) :=
          noDupTriples_append_single l (newAssignment rid uid d) hl hb
        have := h5 hl2
        rw [List.append_assoc, List.singleton_append] at this
        exact this
      · intro d2 hd2
        rcases List.mem_cons.mp hd2 with hd2 | hd2
        · rw [hd2, h1, hasAssignment_append]
          have hleft : hasAssignment (l ++ [newAssignment rid uid d]) rid uid d = true := by
            refine hasAssignment_of_props _ (newAssignment rid uid d) ?_ rid uid d rfl rfl rfl
            exact List.mem_append_right l (List.mem_singleton.mpr rfl)
          rw [hleft]
          rfl
        · exact h6 d2 hd2

/-- Store for the batch example: route 1, active user 1, and one existing
assignment (route 1, user 1, day 5). -/
def dbBatch : DB :=
  { users := [memberUser], invite_codes := [], clients := [], visit_logs := [],
    routes := [{ id := 1, name := "r", description := none }], route_clients := [],
    assignments := [{ route_id := 1, user_id := 1, assigned_date := 5, status := "pending" }],
    route_templates := [] }

/-- Batch request for days 5, 6 and 7 (day 5 already assigned). -/
def batchReq : BatchAssignmentCreate := { route_id := 1, user_id := 1, dates := [5, 6, 7] }

/-- C7: with the route and an active user present, the batch endpoint never
fails on duplicates: it returns created/skipped counts summing to the number
of submitted dates, appends exactly `created` new rows — each for the given
route and user, pending, and for a date that had no identical triple in the
prior store — afterwards every submitted date has its triple present, and
triple-uniqueness of the store is preserved.  On the concrete store with one
of three dates already assigned it returns created=2, skipped=1 and the
resulting store still has no duplicate triple. -/
theorem batch_assign_spec (db : DB) (data : BatchAssignmentCreate)
    (hroute : (db.routes.find? (fun r => r.id == data.route_id)).isSome)
    (huser : (db.users.find? (fun u => u.id == data.user_id && u.is_active)).isSome) :
    (batch_assign_routes dbBatch batchReq).2 = Except.ok (2, 1) ∧
    noDupTriples (batch_assign_routes dbBatch batchReq).1.assignments ∧
    ∃ (created skipped : Nat) (news : List RouteAssignment),
      (batch_assign_routes db data).2 = Except.ok (created, skipped) ∧
      created + skipped = data.dates.length ∧
      (batch_assign_routes db data).1.assignments = db.assignments ++ news ∧
      news.length = created ∧
      (∀ a ∈ news, a.route_id = data.route_id ∧ a.user_id = data.user_id ∧
        a.assigned_date ∈ data.dates ∧ a.status = "pending" ∧
        hasAssignment db.assignments data.route_id data.user_id a.assigned_date = false) ∧
      (∀ d ∈ data.dates,
        hasAssignment (batch_assign_routes db data).1.assignments
          data.route_id data.user_id d = true) ∧
      (noDupTriples db.assignments →
        noDupTriples (batch_assign_routes db data).1.assignments) := by
  obtain ⟨r0, hr0⟩ := Option.isSome_iff_exists.mp hroute
  obtain ⟨u0, hu0⟩ := Option.isSome_iff_exists.mp huser
  have hres : batch_assign_routes db data =
      ({ db with
          assignments := (batchFold data.route_id data.user_id data.dates db.assignments 0 0).1 },
        Except.ok ((batchFold data.route_id data.user_id data.dates db.assignments 0 0).2.1,
          (batchFold data.route_id data.user_id data.dates db.assignments 0 0).2.2)) := by
    simp only [batch_assign_routes, hr0, hu0, Option.isNone_some, Bool.false_eq_true,
      if_false]
  obtain ⟨news, f1, f2, f3, f4, f5, f6⟩ :=
    batchFold_spec data.route_id data.user_id data.dates db.assignments 0 0
  refine ⟨by decide, by decide,
    (batchFold data.route_id data.user_id data.dates db.assignments 0 0).2.1,
    (batchFold data.route_id data.user_id data.dates db.assignments 0 0).2.2,
    news, by rw [hres], by omega, by rw [hres]; exact f1, by omega, f4, ?_, ?_⟩
  · intro d hd
    rw [hres]
    exact f6 d hd
  · intro hnd
    rw [hres]
    show noDupTriples (batchFold data.route_id data.user_id data.dates db.assignments 0 0).1
    rw [f1]
    exact f5 hnd

theorem batch_assign_spec_witness :
    (dbBatch.routes.find? (fun r => r.id == batchReq.route_id)).isSome ∧
    (dbBatch.users.find? (fun u => u.id == batchReq.user_id && u.is_active)).isSome ∧
    (batch_assign_routes dbBatch batchReq).2 = Except.ok (2, 1) :=
  ⟨by decide, by decide, (batch_assign_spec dbBatch batchReq (by decide) (by decide)).1⟩

/-- Request body `ClientCreate`, also used by `PUT /api/clients/{id}`
(`src/app/main.py`); every field except `name` defaults to `None`. -/
structure ClientCreate where
  name : String
  contact_name : Option String
  contact_phone : Option String
  contact_email : Option String
  notes : Option String
  address : Option String
  latitude : Option Int
  longitude : Option Int
deriving Repr, DecidableEq

/-- The field loop of `update_client` (`src/app/main.py` lines 1072-1073):
`for key, value in client.model_dump().items(): setattr(db_client, key,
value)` — every body field overwrites the stored one, `None` included. -/
def applyClientUpdate (body : ClientCreate) (c : Client) : Client :=
  { c with
    name := body.name, contact_name := body.contact_name,
    contact_phone := body.contact_phone, contact_email := body.contact_email,
    notes := body.notes, address := body.address,
    latitude := body.latitude, longitude := body.longitude }

/-- `update_client` (`src/app/main.py` lines 1062-1084): 404 when missing,
otherwise overwrite every body field of the stored row. -/
def update_client (db : DB) (client_id : Int) (body : ClientCreate) :
    DB × Except Nat Unit :=
  match db.findClient client_id with
  | none => (db, Except.error 404)
  | some _ =>
    ({ db with clients := db.clients.map (fun c =>
        if c.id == client_id then applyClientUpdate body c else c) },
      Except.ok ())

/-- Request body `UserUpdate` (`src/app/main.py`): all three fields optional. -/
structure UserUpdate where
  name : Option String
  role : Option String
  is_active : Option Bool
deriving Repr, DecidableEq

/-- The field updates of `update_user` (`src/app/main.py` lines 472-477):
each of `name`, `role`, `is_active` is written only when the body value `is
not None`. -/
def applyUserUpdate (body : UserUpdate) (u : User) : User :=
  let u1 := match body.name with
    | some n => { u with name := n }
    | none => u
  let u2 := match body.role with
    | some r => { u1 with role := r }
    | none => u1
  match body.is_active with
  | some b => { u2 with is_active := b }
  | none => u2

/-- `update_user` (`src/app/main.py` lines 460-481): 404 when missing,
otherwise apply the conditional field updates. -/
def update_user (db : DB) (user_id : Int) (body : UserUpdate) :
    DB × Except Nat Unit :=
  match db.users.find? (fun u => u.id == user_id) with
  | none => (db, Except.error 404)
  | some _ =>
    ({ db with users := db.users.map (fun u =>
        if u.id == user_id then applyUserUpdate body u else u) },
      Except.ok ())

/-- Stored user with name "A" for the PUT counterexample. -/
def userA : User :=
  { id := 1, email := "a@x", password_hash := "h", name := "A",
    role := "member", is_active := true }

/-- Same user but with stored name "B". -/
def userB : User :=
  { id := 1, email := "a@x", password_hash := "h", name := "B",
    role := "member", is_active := true }

/-- The all-`None` update body (an empty JSON object parses to this). -/
def emptyUserUpdate : UserUpdate := { name := none, role := none, is_active := none }

/-- C8 counterexample: `PUT /api/users/{id}` is not a full-field overwrite.
With the all-`None` body the stored name survives — the result depends on the
prior stored row, not on the body alone, and two stored rows differing only
in `name` stay different after the same PUT. -/
theorem update_user_not_full_overwrite :
    (applyUserUpdate emptyUserUpdate userA).name = "A" ∧
    (applyUserUpdate emptyUserUpdate userB).name = "B" ∧
    applyUserUpdate emptyUserUpdate userA ≠ applyUserUpdate emptyUserUpdate userB := by
  decide

/-- C8 amended: `PUT /api/clients/{id}` is a full-field overwrite — the
resulting row is determined by the body alone (plus the row's id): every body
field, `None` included, replaces the stored value.  `PUT /api/users/{id}` is
a partial patch: each of `name`, `role`, `is_active` is overwritten exactly
when it is non-`None` in the body and kept otherwise; `id`, `email` and the
password hash are never touched. -/
theorem put_update_semantics (body : ClientCreate) (c : Client)
    (ub : UserUpdate) (u : User) :
    applyClientUpdate body c =
      { id := c.id, name := body.name, contact_name := body.contact_name,
        contact_phone := body.contact_phone, contact_email := body.contact_email,
        notes := body.notes, address := body.address,
        latitude := body.latitude, longitude := body.longitude } ∧
    (applyUserUpdate ub u).name = ub.name.getD u.name ∧
    (applyUserUpdate ub u).role = ub.role.getD u.role ∧
    (applyUserUpdate ub u).is_active = ub.is_active.getD u.is_active ∧
    (applyUserUpdate ub u).id = u.id ∧
    (applyUserUpdate ub u).email = u.email ∧
    (applyUserUpdate ub u).password_hash = u.password_hash := by
  rcases ub with ⟨n, r, a⟩
  refine ⟨rfl, ?_, ?_, ?_, ?_, ?_, ?_⟩ <;>
    cases n <;> cases r <;> cases a <;> rfl

/-- Request body `RouteTemplateCreate` (`src/app/main.py`). -/
structure RouteTemplateCreate where
  name : String
  description : Option String
  client_ids : List Int
  schedule_days : Option String
deriving Repr, DecidableEq

/-- The stored template row a creation inserts. -/
def newTemplateOf (db : DB) (current : User) (t : RouteTemplateCreate) : RouteTemplate :=
  { id := nextId (db.route_templates.map (fun x => x.id)), name := t.name,
    description := t.description, client_ids := t.client_ids,
    schedule_days := t.schedule_days, created_by := current.id }

/-- `create_route_template` (`src/app/main.py` lines 763-795): every
submitted client id is validated (`400 Client {id} not found` on the first
missing one); only then is the list serialized into the new template row. -/
def create_route_template (db : DB) (current : User) (t : RouteTemplateCreate) :
    DB × Except Nat Int :=
  if t.client_ids.all (fun cid => (db.findClient cid).isSome) then
    ({ db with route_templates := db.route_templates ++ [newTemplateOf db current t] },
      Except.ok (nextId (db.route_templates.map (fun x => x.id))))
  else
    (db, Except.error 400)

/-- `update_route_template` (`src/app/main.py` lines 836-874): 404 when the
template is missing, 403 unless creator or admin, then the same per-id
validation as creation before overwriting the stored fields. -/
def update_route_template (db : DB) (current : User) (template_id : Int)
    (t : RouteTemplateCreate) : DB × Except Nat Unit :=
  match db.route_templates.find? (fun x => x.id == template_id) with
  | none => (db, Except.error 404)
  | some tmpl =>
    if tmpl.created_by ≠ current.id ∧ current.role ≠ "admin" then
      (db, Except.error 403)
    else if t.client_ids.all (fun cid => (db.findClient cid).isSome) then
      ({ db with route_templates := db.route_templates.map (fun x =>
          if x.id == template_id then
            { x with
              name := t.name, description := t.description,
              client_ids := t.client_ids, schedule_days := t.schedule_days }
          else x) },
        Except.ok ())
    else
      (db, Except.error 400)

/-- A store with no clients at all. -/
def dbNoClients : DB :=
  { users := [adminSeed], invite_codes := [], clients := [], visit_logs := [],
    routes := [], route_clients := [], assignments := [], route_templates := [] }

/-- C9 counterexample: storing a route template does validate the submitted
client ids — submitting `[1]` when no client exists is rejected with 400 and
nothing is stored, refuting "any list of ids is accepted". -/
theorem create_route_template_validates :
    create_route_template dbNoClients adminSeed
        { name := "t", description := none, client_ids := [1], schedule_days := none } =
      (dbNoClients, Except.error 400) := by
  decide

/-- A stored template whose list has a stale id (client 2 was deleted). -/
def staleTemplate : RouteTemplate :=
  { id := 1, name := "t", description := none,
    client_ids := [2, 1], schedule_days := none, created_by := 1 }

/-- Store holding `staleTemplate` while only client 1 still exists. -/
def dbTemplateStale : DB :=
  { users := [adminSeed], invite_codes := [], clients := [sampleClient 1], visit_logs := [],
    routes := [], route_clients := [], assignments := [],
    route_templates := [staleTemplate] }

/-- C9 amended: `POST /api/route-templates` and `PUT
/api/route-templates/{id}` validate every submitted client id, rejecting the
request with 400 when any id has no client; a fully valid list is stored
as-is.  Only ids that become stale after storage vanish silently: when
`create_route_from_template` expands the stored list, the membership loop
skips ids whose client no longer exists, and every inserted row refers to an
existing client from the stored list. -/
theorem route_template_validation_spec (db : DB) (current : User)
    (t : RouteTemplateCreate) (template_id : Int) (nm : Option String) (today : String) :
    ((∃ cid ∈ t.client_ids, db.findClient cid = none) →
      create_route_template db current t = (db, Except.error 400)) ∧
    ((∀ cid ∈ t.client_ids, (db.findClient cid).isSome) →
      create_route_template db current t =
        ({ db with route_templates := db.route_templates ++ [newTemplateOf db current t] },
          Except.ok (nextId (db.route_templates.map (fun x => x.id))))) ∧
    (∀ tmpl, db.route_templates.find? (fun x => x.id == template_id) = some tmpl →
      ¬(tmpl.created_by ≠ current.id ∧ current.role ≠ "admin") →
      (∃ cid ∈ t.client_ids, db.findClient cid = none) →
      update_route_template db current template_id t = (db, Except.error 400)) ∧
    (∀ tmpl, db.route_templates.find? (fun x => x.id == template_id) = some tmpl →
      (create_route_from_template db template_id nm today).2 =
        Except.ok (nextId (db.routes.map (fun r => r.id))) ∧
      (create_route_from_template db template_id nm today).1.route_clients =
        db.route_clients ++
          addRouteClients db (nextId (db.routes.map (fun r => r.id))) tmpl.client_ids 0 ∧
      (∀ rc ∈ addRouteClients db (nextId (db.routes.map (fun r => r.id))) tmpl.client_ids 0,
        (db.findClient rc.client_id).isSome ∧ rc.client_id ∈ tmpl.client_ids)) ∧
    (routeClientsOf (create_route_from_template dbTemplateStale 1 none "d").1
        (nextId (dbTemplateStale.routes.map (fun r => r.id)))).map
      (fun rc => rc.client_id) = [1] := by
  refine ⟨?_, ?_, ?_, ?_, by decide⟩
  · intro hmiss
    obtain ⟨cid, hcid, hnone⟩ := hmiss
    have hall : t.client_ids.all (fun cid => (db.findClient cid).isSome) = false := by
      rw [List.all_eq_false]
      exact ⟨cid, hcid, by simp [hnone]⟩
    simp only [create_route_template, hall, Bool.false_eq_true, if_false]
  · intro hall
    have hall2 : t.client_ids.all (fun cid => (db.findClient cid).isSome) = true := by
      rw [List.all_eq_true]
      intro cid hcid
      simpa using hall cid hcid
    simp only [create_route_template, hall2, if_true]
  · intro tmpl hfind hauth hmiss
    obtain ⟨cid, hcid, hnone⟩ := hmiss
    have hall : t.client_ids.all (fun cid => (db.findClient cid).isSome) = false := by
      rw [List.all_eq_false]
      exact ⟨cid, hcid, by simp [hnone]⟩
    simp only [update_route_template, hfind, if_neg hauth, hall, Bool.false_eq_true,
      if_false]
  · intro tmpl hfind
    refine ⟨by simp [create_route_from_template, hfind], by simp [create_route_from_template, hfind], ?_⟩
    intro rc hrc
    have := addRouteClients_fields db _ tmpl.client_ids 0 rc hrc
    exact ⟨this.2.1, this.2.2⟩

theorem route_template_validation_spec_witness :
    ((∃ cid ∈ ([2] : List Int), dbNoClients.findClient cid = none) →
      create_route_template dbNoClients adminSeed
          { name := "t2", description := none, client_ids := [2], schedule_days := none } =
        (dbNoClients, Except.error 400)) ∧
    (∃ cid ∈ ([2] : List Int), dbNoClients.findClient cid = none) :=
  ⟨(route_template_validation_spec dbNoClients adminSeed
      { name := "t2", description := none, client_ids := [2], schedule_days := none }
      1 none "d").1,
    ⟨2, by decide, by decide⟩⟩

/-- `delete_user` (`src/app/main.py` lines 484-500), after the admin guard:
the self-delete check runs before the lookup; then 404 when the user is
missing; otherwise the row is kept and only `is_active` is set to `False`
(soft deactivation, "does not delete to preserve history"). -/
def delete_user (db : DB) (current : User) (user_id : Int) : DB × Except Nat Unit :=
  if user_id = current.id then (db, Except.error 400)
  else
    match db.users.find? (fun u => u.id == user_id) with
    | none => (db, Except.error 404)
    | some _ =>
      ({ db with users := db.users.map (fun u =>
          if u.id == user_id then { u with is_active := false } else u) },
        Except.ok ())

/-- C10: an admin deleting their own id gets 400 with the store unchanged (no
activity flag moves); deleting a missing id gets 404 unchanged; deleting any
other existing id succeeds, keeps every row (same row count), flips exactly
the target's `is_active` to false and leaves every other row intact. -/
theorem delete_user_spec (db : DB) (current : User) (user_id : Int)
    (hadmin : current.role = "admin") :
    (user_id = current.id → delete_user db current user_id = (db, Except.error 400)) ∧
    (user_id ≠ current.id →
      db.users.find? (fun u => u.id == user_id) = none →
      delete_user db current user_id = (db, Except.error 404)) ∧
    (user_id ≠ current.id →
      (db.users.find? (fun u => u.id == user_id)).isSome →
      (delete_user db current user_id).2 = Except.ok () ∧
      (delete_user db current user_id).1.users =
        db.users.map (fun u =>
          if u.id == user_id then { u with is_active := false } else u) ∧
      (delete_user db current user_id).1.users.length = db.users.length ∧
      (∀ u ∈ db.users, u.id ≠ user_id →
        u ∈ (delete_user db current user_id).1.users)) := by
  refine ⟨?_, ?_, ?_⟩
  · intro h
    simp only [delete_user, if_pos h]
  · intro h hnone
    simp only [delete_user, if_neg h, hnone]
  · intro h hsome
    obtain ⟨u0, hu0⟩ := Option.isSome_iff_exists.mp hsome
    have hres : delete_user db current user_id =
        ({ db with users := db.users.map (fun u =>
            if u.id == user_id then { u with is_active := false } else u) },
          Except.ok ()) := by
      simp only [delete_user, if_neg h, hu0]
    refine ⟨by rw [hres], by rw [hres], by rw [hres]; simp, ?_⟩
    intro u hu hne
    rw [hres]
    have himg : (if u.id == user_id then { u with is_active := false } else u) = u := by
      simp [hne]
    exact List.mem_map.mpr ⟨u, hu, himg⟩

/-- Admin with id 2, alongside the member user id 1. -/
def adminTwo : User :=
  { id := 2, email := "ad@x", password_hash := "h", name := "AD",
    role := "admin", is_active := true }

/-- Store with a member (id 1) and an admin (id 2). -/
def dbTwoUsers : DB :=
  { users := [memberUser, adminTwo], invite_codes := [], clients := [], visit_logs := [],
    routes := [], route_clients := [], assignments := [], route_templates := [] }

theorem delete_user_spec_witness :
    adminTwo.role = "admin" ∧
    ((2 : Int) = adminTwo.id →
      delete_user dbTwoUsers adminTwo 2 = (dbTwoUsers, Except.error 400)) :=
  ⟨by decide, (delete_user_spec dbTwoUsers adminTwo 2 (by decide)).1⟩

end RouteView
